import Mathlib

/-!
Shallow embedding of the task-scheduling core of the os3 kernel
(src/os3/src/task/mod.rs and src/os3/src/task/task.rs), together with
theorems checking the natural-language specification against it.

Modelling conventions:
* Machine integers become `Nat`; `u32` arithmetic reduces modulo `U32_MOD`
  and `usize` arithmetic modulo `USIZE_MOD` where overflow matters.
* The `UPSafeCell` interior-mutability wrapper is flattened away: every
  operation takes the manager state and returns the updated state.
* `panic!` / `todo!` paths are modelled by explicit result constructors
  (`Option` for `todo!()`, `RunNextOutcome.halted` for
  `panic!("All applications completed!")`).
* Wall-clock time (`get_time_us() / 1000`) is passed in as an explicit
  `now_ms` argument.
* Fixed-size Rust arrays become Lean lists; in-bounds indexing uses
  `List.getD` with a default element (all indices that matter are proven
  in range).
-/

namespace OS3

/-- Task status enumeration, from `src/os3/src/task/task.rs`:
`UnInit`, `Ready`, `Running`, `Exited`. -/
inductive TaskStatus where
  | UnInit
  | Ready
  | Running
  | Exited
deriving DecidableEq, Repr

/-- Modelled from the spec: the `TaskContext` type lives in
`src/os3/src/task/context.rs`, which is not under `src/`.  The spec
describes it as an opaque saved-register snapshot plus a resume address
and a stack pointer; the claims never inspect its contents, only whether
it changes. -/
structure TaskContext where
  ra : Nat
  sp : Nat
  s : List Nat
deriving DecidableEq, Repr

/-- Modelled from the spec: the zeroed placeholder construction mode of a
context ("a zeroed placeholder, used as a throwaway save destination"). -/
def TaskContext.zero_init : TaskContext :=
  { ra := 0, sp := 0, s := List.replicate 12 0 }

/-- Modelled from the spec: the "resume-at-restore-trampoline" construction
mode; the resume address (the trap-return trampoline) is abstracted as an
arbitrary fixed value since no claim inspects it. -/
def TaskContext.goto_restore (kstack_ptr : Nat) : TaskContext :=
  { ra := 1, sp := kstack_ptr, s := List.replicate 12 0 }

/-- Task control block, from `src/os3/src/task/task.rs`: status, saved
context, per-task syscall counters (`[u32; 5]`), first-run timestamp
(`start_time: usize`, 0 until first scheduled). -/
structure TaskControlBlock where
  task_status : TaskStatus
  task_cx : TaskContext
  syscall_times : List Nat
  start_time : Nat
deriving DecidableEq, Repr

/-- Modelled from the spec: `MAX_APP_NUM` comes from `crate::config`, which
is not under `src/`; the table has fixed capacity with only the first
`num_app` slots meaningful.  The concrete value only bounds `num_app`. -/
def MAX_APP_NUM : Nat := 16

/-- Modelled from the spec: `MAX_SYSCALL_NUM` comes from `crate::config`
(not under `src/`); it is the size of the full syscall-kind space of the
diagnostic record. -/
def MAX_SYSCALL_NUM : Nat := 500

/-- Modelled from the spec: the numeric syscall ids come from
`crate::syscall` (not under `src/`); the five tracked kinds use the
RISC-V Linux syscall numbering of the surrounding kernel. -/
def SYSCALL_WRITE : Nat := 64

/-- Modelled from the spec: see `SYSCALL_WRITE`. -/
def SYSCALL_EXIT : Nat := 93

/-- Modelled from the spec: see `SYSCALL_WRITE`. -/
def SYSCALL_YIELD : Nat := 124

/-- Modelled from the spec: see `SYSCALL_WRITE`. -/
def SYSCALL_GET_TIME : Nat := 169

/-- Modelled from the spec: see `SYSCALL_WRITE`. -/
def SYSCALL_TASK_INFO : Nat := 410

/-- Modulus of `u32` arithmetic (the syscall counters). -/
def U32_MOD : Nat := 2 ^ 32

/-- Modulus of `usize` arithmetic (timestamps, on a 64-bit target). -/
def USIZE_MOD : Nat := 2 ^ 64

/-- The default element used for `List.getD` reads of the task table; its
fields mirror the all-zero initializer of the `tasks` array in
`src/os3/src/task/mod.rs`. -/
def defaultTCB : TaskControlBlock :=
  { task_status := TaskStatus.UnInit
  , task_cx := TaskContext.zero_init
  , syscall_times := List.replicate 5 0
  , start_time := 0 }

/-- The task manager inner state (`TaskManagerInner` in
`src/os3/src/task/mod.rs`): the task table and the id of the current
`Running` task. -/
structure TaskManagerInner where
  tasks : List TaskControlBlock
  current_task : Nat
deriving DecidableEq, Repr

/-- The task manager (`TaskManager` in `src/os3/src/task/mod.rs`):
the total number of tasks plus the inner state (the `UPSafeCell`
wrapper is flattened into explicit state passing). -/
structure TaskManager where
  num_app : Nat
  inner : TaskManagerInner
deriving DecidableEq, Repr

/-- The status of slot `i` of the task table. -/
def statusAt (m : TaskManager) (i : Nat) : TaskStatus :=
  (m.inner.tasks.getD i defaultTCB).task_status

/-- Embeds `TaskManager::find_next_task`: scan
`(current + 1 .. current + num_app + 1).map(|id| id % num_app)` and return
the first id whose status is `Ready`. -/
def find_next_task (m : TaskManager) : Option Nat :=
  let current := m.inner.current_task
  ((List.range' (current + 1) m.num_app).map (fun id => id % m.num_app)).find?
    (fun id => (m.inner.tasks.getD id defaultTCB).task_status == TaskStatus.Ready)

/-- Embeds `TaskManager::mark_current_suspended`: set the current task's status to
`Ready`. -/
def mark_current_suspended (m : TaskManager) : TaskManager :=
  let current := m.inner.current_task
  let t := m.inner.tasks.getD current defaultTCB
  { m with inner :=
    { m.inner with tasks :=
        m.inner.tasks.set current { t with task_status := TaskStatus.Ready } } }

/-- Embeds `TaskManager::mark_current_exited`: set the current task's status to
`Exited`. -/
def mark_current_exited (m : TaskManager) : TaskManager :=
  let current := m.inner.current_task
  let t := m.inner.tasks.getD current defaultTCB
  { m with inner :=
    { m.inner with tasks :=
        m.inner.tasks.set current { t with task_status := TaskStatus.Exited } } }

/-- Embeds `TaskManager::run_first_task` up to the context switch: mark slot 0
`Running` and record its first-run timestamp.  The `__switch` into task 0
transfers control and does not return; the state at that point is the
function's result here. -/
def run_first_task (m : TaskManager) (now_ms : Nat) : TaskManager :=
  let t0 := m.inner.tasks.getD 0 defaultTCB
  let t0' := { t0 with task_status := TaskStatus.Running, start_time := now_ms }
  { m with inner := { m.inner with tasks := m.inner.tasks.set 0 t0' } }

/-- Outcome of `TaskManager::run_next_task`: either a switch into the next
task with the updated manager state, or the
`panic!("All applications completed!")` terminal halt carrying the state
at the moment of the panic. -/
inductive RunNextOutcome where
  | switched (m : TaskManager)
  | halted (m : TaskManager) (msg : String)
deriving DecidableEq, Repr

/-- Embeds `TaskManager::run_next_task`: if `find_next_task` yields `Some(next)`,
mark `next` `Running`, record its first-run timestamp if unset, update
`current_task` and switch; otherwise panic with
"All applications completed!". -/
def run_next_task (m : TaskManager) (now_ms : Nat) : RunNextOutcome :=
  match find_next_task m with
  | some next =>
    let t := m.inner.tasks.getD next defaultTCB
    let t' := { t with
      task_status := TaskStatus.Running,
      start_time := if t.start_time = 0 then now_ms else t.start_time }
    RunNextOutcome.switched
      { m with inner := { tasks := m.inner.tasks.set next t', current_task := next } }
  | none => RunNextOutcome.halted m "All applications completed!"

/-- Embeds `map_syscall_to_small_range` from `src/os3/src/task/mod.rs`; the
`todo!()` arm (an unconditional panic) is modelled as `none`. -/
def map_syscall_to_small_range (syscall_id : Nat) : Option Nat :=
  if syscall_id = SYSCALL_WRITE then some 0
  else if syscall_id = SYSCALL_YIELD then some 1
  else if syscall_id = SYSCALL_EXIT then some 2
  else if syscall_id = SYSCALL_GET_TIME then some 3
  else if syscall_id = SYSCALL_TASK_INFO then some 4
  else none

/-- Embeds `map_small_range_to_syscall` from `src/os3/src/task/mod.rs`; the
`todo!()` arm is modelled as `none`. -/
def map_small_range_to_syscall (id : Nat) : Option Nat :=
  if id = 0 then some SYSCALL_WRITE
  else if id = 1 then some SYSCALL_YIELD
  else if id = 2 then some SYSCALL_EXIT
  else if id = 3 then some SYSCALL_GET_TIME
  else if id = 4 then some SYSCALL_TASK_INFO
  else none

/-- Embeds `TaskManager::update_syscall_num`: increment the current task's counter
for the small-range index of `syscall_id` (a `u32` increment, hence modulo
`U32_MOD`); an untracked id hits `todo!()` in the mapping, modelled as
`none`. -/
def update_syscall_num (m : TaskManager) (syscall_id : Nat) : Option TaskManager :=
  match map_syscall_to_small_range syscall_id with
  | some k =>
    let current := m.inner.current_task
    let t := m.inner.tasks.getD current defaultTCB
    let counts := t.syscall_times.set k ((t.syscall_times.getD k 0 + 1) % U32_MOD)
    let t' := { t with syscall_times := counts }
    some { m with inner := { m.inner with tasks := m.inner.tasks.set current t' } }
  | none => none

/-- The `TaskInfo` record from `crate::syscall` as used by
`get_current_task_info`: status, the per-kind syscall counts over the full
syscall-kind space, elapsed milliseconds. -/
structure TaskInfo where
  status : TaskStatus
  syscall_times : List Nat
  time : Nat
deriving DecidableEq, Repr

/-- Embeds `get_current_task_info`: read the current task's block, fill the
diagnostic record (zero the full-space table, copy the five tracked
counters through `map_small_range_to_syscall`, compute
`now - start_time` with `usize` wrapping) and return 0.  The
`none` fallback in the fold is unreachable for `i < 5`. -/
def get_current_task_info (m : TaskManager) (now_ms : Nat) : TaskInfo × Int :=
  let current := m.inner.current_task
  let cur_task := m.inner.tasks.getD current defaultTCB
  let base := List.replicate MAX_SYSCALL_NUM 0
  let table := (List.range 5).foldl
    (fun acc i =>
      match map_small_range_to_syscall i with
      | some s => acc.set s (cur_task.syscall_times.getD i 0)
      | none => acc) base
  ({ status := cur_task.task_status
   , syscall_times := table
   , time := (now_ms + USIZE_MOD - cur_task.start_time) % USIZE_MOD }, 0)

/-- Embeds `suspend_current_and_run_next`: mark the current task suspended, then
run the next task. -/
def suspend_current_and_run_next (m : TaskManager) (now_ms : Nat) : RunNextOutcome :=
  run_next_task (mark_current_suspended m) now_ms

/-- Embeds `exit_current_and_run_next`: mark the current task exited, then run the
next task. -/
def exit_current_and_run_next (m : TaskManager) (now_ms : Nat) : RunNextOutcome :=
  run_next_task (mark_current_exited m) now_ms

/-- Embeds `update_current_syscall_times`: module-level wrapper around
`TaskManager::update_syscall_num`. -/
def update_current_syscall_times (m : TaskManager) (syscall_id : Nat) :
    Option TaskManager :=
  update_syscall_num m syscall_id

/-- The operation `update_current_syscall_times` iterated `n` times with the same
syscall id (the "called m times" scenario of the spec). -/
def record_syscall_times (syscall_id : Nat) : Nat → TaskManager → Option TaskManager
  | 0, m => some m
  | Nat.succ n, m =>
    match update_current_syscall_times m syscall_id with
    | some m' => record_syscall_times syscall_id n m'
    | none => none

/-- The task table built by the `TASK_MANAGER` lazy initializer: a
`MAX_APP_NUM`-slot array of zeroed `UnInit` blocks, with the first
`num_app` slots given their initial context and status `Ready`
(`init_app_cx` lives in the loader, outside `src/`, so the initial
contexts are a parameter `cx`). -/
def init_tasks (num_app : Nat) (cx : Nat → TaskContext) : List TaskControlBlock :=
  (List.range MAX_APP_NUM).map (fun i =>
    if i < num_app then
      { task_status := TaskStatus.Ready
      , task_cx := cx i
      , syscall_times := List.replicate 5 0
      , start_time := 0 }
    else defaultTCB)

/-- The `TASK_MANAGER` instance built by the lazy initializer:
`num_app` from the loader, the initialized task table, `current_task = 0`. -/
def init_task_manager (num_app : Nat) (cx : Nat → TaskContext) : TaskManager :=
  { num_app := num_app
  , inner := { tasks := init_tasks num_app cx, current_task := 0 } }

/-- One completed public operation of the scheduler, as exposed to the trap
and syscall layer: a completed suspend-and-reschedule, a completed
exit-and-reschedule, or a successful syscall-count update
(`get_current_task_info` does not change the manager state). -/
inductive Step : TaskManager → TaskManager → Prop where
  | suspend (m m' : TaskManager) (now_ms : Nat) :
      suspend_current_and_run_next m now_ms = RunNextOutcome.switched m' →
      Step m m'
  | exitTask (m m' : TaskManager) (now_ms : Nat) :
      exit_current_and_run_next m now_ms = RunNextOutcome.switched m' →
      Step m m'
  | record (m m' : TaskManager) (syscall_id : Nat) :
      update_current_syscall_times m syscall_id = some m' →
      Step m m'

/-- Manager states reachable through the public interface: the state right
after `run_first_task` on the freshly initialized manager (with at least
one app, at most `MAX_APP_NUM`), closed under completed public
operations. -/
inductive Reachable : TaskManager → Prop where
  | launch (num_app : Nat) (cx : Nat → TaskContext) (now_ms : Nat)
      (h1 : 0 < num_app) (h2 : num_app ≤ MAX_APP_NUM) :
      Reachable (run_first_task (init_task_manager num_app cx) now_ms)
  | step (m m' : TaskManager) : Reachable m → Step m m' → Reachable m'

/-- The scheduler's core invariant: the task count is positive and within
the table, the current task is in range and `Running`, and no other
in-range task is `Running`. -/
def Inv (m : TaskManager) : Prop :=
  m.num_app ≤ m.inner.tasks.length ∧
  0 < m.num_app ∧
  m.inner.current_task < m.num_app ∧
  statusAt m m.inner.current_task = TaskStatus.Running ∧
  ∀ j, j < m.num_app → j ≠ m.inner.current_task →
    statusAt m j ≠ TaskStatus.Running

/-! ### Helper lemmas about lists -/

theorem getD_set_self {α : Type} (l : List α) (i : Nat) (a d : α)
    (h : i < l.length) : (l.set i a).getD i d = a := by
  simp [List.getD, List.getElem?_set, h]

theorem getD_set_ne {α : Type} (l : List α) (i j : Nat) (a d : α)
    (h : i ≠ j) : (l.set i a).getD j d = l.getD j d := by
  simp [List.getD, List.getElem?_set, h]

theorem getD_replicate {α : Type} (n : Nat) (a : α) (m : Nat) (d : α) :
    (List.replicate n a).getD m d = if m < n then a else d := by
  simp [List.getD, List.getElem?_replicate]
  split <;> simp

/-- Positional characterization of `List.find?`: it returns `some a` exactly
when some index `k` holds `a`, `a` satisfies the predicate, and every
earlier index fails it. -/
theorem find?_eq_some_iff_getD {α : Type} (p : α → Bool) (d : α) :
    ∀ (l : List α) (a : α),
      l.find? p = some a ↔
        ∃ k, k < l.length ∧ l.getD k d = a ∧ p a = true ∧
          ∀ k', k' < k → p (l.getD k' d) = false := by
  intro l
  induction l with
  | nil => intro a; simp
  | cons x xs ih =>
    intro a
    rw [List.find?_cons]
    cases hpx : p x with
    | true =>
      simp only []
      constructor
      · intro hx
        have hax : x = a := by injection hx
        subst hax
        exact ⟨0, by simp, rfl, hpx, fun k' hk' => absurd hk' (Nat.not_lt_zero k')⟩
      · rintro ⟨k, hk, hget, hpa, hprev⟩
        cases k with
        | zero => simp at hget; rw [hget]
        | succ k'' =>
          have := hprev 0 (Nat.succ_pos _)
          simp [hpx] at this
    | false =>
      simp only []
      rw [ih a]
      constructor
      · rintro ⟨k, hk, hget, hpa, hprev⟩
        refine ⟨k + 1, by simpa using Nat.succ_lt_succ hk, by simpa using hget, hpa, ?_⟩
        intro k' hk'
        cases k' with
        | zero => simpa using hpx
        | succ j => exact hprev j (Nat.lt_of_succ_lt_succ hk')
      · rintro ⟨k, hk, hget, hpa, hprev⟩
        cases k with
        | zero =>
          simp at hget
          rw [hget] at hpx
          rw [hpa] at hpx
          exact absurd hpx (by simp)
        | succ k'' =>
          refine ⟨k'', by simpa using Nat.lt_of_succ_lt_succ hk, by simpa using hget, hpa, ?_⟩
          intro k' hk'
          have := hprev (k' + 1) (Nat.succ_lt_succ hk')
          simpa using this

/-- Element `k` of `(List.range' s n).map f` is `f (s + k)`. -/
theorem getD_map_range' {α : Type} (f : Nat → α) (d : α) :
    ∀ (n s k : Nat), k < n → ((List.range' s n).map f).getD k d = f (s + k) := by
  intro n
  induction n with
  | zero => intro s k hk; exact absurd hk (Nat.not_lt_zero k)
  | succ n ih =>
    intro s k hk
    rw [List.range'_succ]
    cases k with
    | zero => simp
    | succ k' =>
      simp only [List.map_cons, List.getD_cons_succ]
      rw [ih (s + 1) k' (Nat.lt_of_succ_lt_succ hk)]
      congr 1
      omega

/-! ### Characterization of the round-robin scan -/

/-- The scan `find_next_task` returns `some j` exactly when `j` is the first slot in
the cyclic order `(current+1) % n, (current+2) % n, …, (current+n) % n`
whose status is `Ready`. -/
theorem find_next_task_eq_some_iff (m : TaskManager) (j : Nat) :
    find_next_task m = some j ↔
      ∃ k, k < m.num_app ∧ j = (m.inner.current_task + 1 + k) % m.num_app ∧
        statusAt m j = TaskStatus.Ready ∧
        ∀ k', k' < k →
          statusAt m ((m.inner.current_task + 1 + k') % m.num_app) ≠
            TaskStatus.Ready := by
  unfold find_next_task
  rw [find?_eq_some_iff_getD _ 0]
  constructor
  · rintro ⟨k, hk, hget, hpa, hprev⟩
    rw [List.length_map, List.length_range'] at hk
    rw [getD_map_range' _ _ _ _ _ hk] at hget
    refine ⟨k, hk, ?_, ?_, ?_⟩
    · rw [← hget]
    · simpa [statusAt] using hpa
    · intro k' hk'
      have := hprev k' hk'
      rw [getD_map_range' _ _ _ _ _ (Nat.lt_trans hk' hk)] at this
      simpa [statusAt] using this
  · rintro ⟨k, hk, hj, hready, hprev⟩
    refine ⟨k, ?_, ?_, ?_, ?_⟩
    · simpa using hk
    · rw [getD_map_range' _ _ _ _ _ hk, ← hj]
    · simpa [statusAt] using hready
    · intro k' hk'
      rw [getD_map_range' _ _ _ _ _ (Nat.lt_trans hk' hk)]
      simpa [statusAt] using hprev k' hk'

/-- The scan `find_next_task` returns `none` exactly when no slot in the cyclic
scan order has status `Ready`. -/
theorem find_next_task_eq_none_iff (m : TaskManager) :
    find_next_task m = none ↔
      ∀ k, k < m.num_app →
        statusAt m ((m.inner.current_task + 1 + k) % m.num_app) ≠
          TaskStatus.Ready := by
  unfold find_next_task
  rw [List.find?_eq_none]
  constructor
  · intro hnone k hk
    have hmem : (m.inner.current_task + 1 + k) % m.num_app ∈
        (List.range' (m.inner.current_task + 1) m.num_app).map
          (fun id => id % m.num_app) := by
      exact List.mem_map.mpr ⟨m.inner.current_task + 1 + k,
        List.mem_range'_1.mpr ⟨Nat.le_add_right _ _, by omega⟩, rfl⟩
    have := hnone _ hmem
    simpa [statusAt] using this
  · intro hall x hmem
    obtain ⟨y, hy, hxy⟩ := List.mem_map.mp hmem
    obtain ⟨hy1, hy2⟩ := List.mem_range'_1.mp hy
    have hk : y - (m.inner.current_task + 1) < m.num_app := by omega
    have := hall (y - (m.inner.current_task + 1)) hk
    have hyy : m.inner.current_task + 1 + (y - (m.inner.current_task + 1)) = y := by
      omega
    rw [hyy] at this
    rw [← hxy]
    simpa [statusAt] using this

/-- A slot returned by the scan is in range and `Ready`. -/
theorem find_next_task_some (m : TaskManager) (j : Nat)
    (h : find_next_task m = some j) :
    j < m.num_app ∧ statusAt m j = TaskStatus.Ready := by
  obtain ⟨k, hk, hj, hready, -⟩ := (find_next_task_eq_some_iff m j).mp h
  have hpos : 0 < m.num_app := Nat.pos_of_ne_zero (by omega)
  exact ⟨hj ▸ Nat.mod_lt _ hpos, hready⟩

/-! ### Effect lemmas for the individual operations -/

/-- The mark `mark_current_suspended` rewrites only the current slot's status, to
`Ready`. -/
theorem mark_suspended_spec (m : TaskManager)
    (hc : m.inner.current_task < m.inner.tasks.length) :
    (mark_current_suspended m).num_app = m.num_app ∧
    (mark_current_suspended m).inner.current_task = m.inner.current_task ∧
    (mark_current_suspended m).inner.tasks.length = m.inner.tasks.length ∧
    ∀ j, statusAt (mark_current_suspended m) j =
      if j = m.inner.current_task then TaskStatus.Ready else statusAt m j := by
  refine ⟨rfl, rfl, by simp [mark_current_suspended], ?_⟩
  intro j
  simp only [mark_current_suspended, statusAt]
  by_cases hj : j = m.inner.current_task
  · subst hj
    rw [if_pos rfl, getD_set_self _ _ _ _ hc]
  · rw [if_neg hj, getD_set_ne _ _ _ _ _ (fun he => hj he.symm)]

/-- The mark `mark_current_exited` rewrites only the current slot's status, to
`Exited`. -/
theorem mark_exited_spec (m : TaskManager)
    (hc : m.inner.current_task < m.inner.tasks.length) :
    (mark_current_exited m).num_app = m.num_app ∧
    (mark_current_exited m).inner.current_task = m.inner.current_task ∧
    (mark_current_exited m).inner.tasks.length = m.inner.tasks.length ∧
    ∀ j, statusAt (mark_current_exited m) j =
      if j = m.inner.current_task then TaskStatus.Exited else statusAt m j := by
  refine ⟨rfl, rfl, by simp [mark_current_exited], ?_⟩
  intro j
  simp only [mark_current_exited, statusAt]
  by_cases hj : j = m.inner.current_task
  · subst hj
    rw [if_pos rfl, getD_set_self _ _ _ _ hc]
  · rw [if_neg hj, getD_set_ne _ _ _ _ _ (fun he => hj he.symm)]

/-- Inversion of a successful `run_next_task`: the switched-to state marks
the found slot `Running`, stamps its first-run time if unset, and moves
`current_task` there, leaving every other slot untouched. -/
theorem run_next_switched_spec (m m' : TaskManager) (now_ms : Nat)
    (h : run_next_task m now_ms = RunNextOutcome.switched m') :
    ∃ next, find_next_task m = some next ∧
      m'.num_app = m.num_app ∧
      m'.inner.current_task = next ∧
      m'.inner.tasks.length = m.inner.tasks.length ∧
      (next < m.inner.tasks.length →
        ∀ j, statusAt m' j =
          if j = next then TaskStatus.Running else statusAt m j) := by
  unfold run_next_task at h
  cases hf : find_next_task m with
  | none => rw [hf] at h; exact absurd h (by simp)
  | some next =>
    rw [hf] at h
    simp only [RunNextOutcome.switched.injEq] at h
    refine ⟨next, rfl, ?_, ?_, ?_, ?_⟩
    · rw [← h]
    · rw [← h]
    · rw [← h]; simp
    · intro hlt j
      rw [← h]
      simp only [statusAt]
      by_cases hj : j = next
      · subst hj
        rw [if_pos rfl, getD_set_self _ _ _ _ hlt]
      · rw [if_neg hj, getD_set_ne _ _ _ _ _ (fun he => hj he.symm)]

/-- A successful `update_syscall_num` changes no status, no `current_task`
and no `num_app`. -/
theorem update_syscall_spec (m m' : TaskManager) (syscall_id : Nat)
    (h : update_syscall_num m syscall_id = some m') :
    m'.num_app = m.num_app ∧
    m'.inner.current_task = m.inner.current_task ∧
    m'.inner.tasks.length = m.inner.tasks.length ∧
    ∀ j, statusAt m' j = statusAt m j := by
  unfold update_syscall_num at h
  cases hk : map_syscall_to_small_range syscall_id with
  | none => rw [hk] at h; exact absurd h (by simp)
  | some k =>
    rw [hk] at h
    simp only [Option.some.injEq] at h
    refine ⟨by rw [← h], by rw [← h], by rw [← h]; simp, ?_⟩
    intro j
    rw [← h]
    simp only [statusAt]
    by_cases hj : j = m.inner.current_task
    · subst hj
      by_cases hc : m.inner.current_task < m.inner.tasks.length
      · rw [getD_set_self _ _ _ _ hc]
      · rw [List.set_eq_of_length_le (by omega)]
    · rw [getD_set_ne _ _ _ _ _ (fun he => hj he.symm)]

/-! ### Invariant preservation -/

/-- Any completed public operation preserves the scheduler invariant, keeps
`num_app` and the table length, and never revives an `Exited` slot. -/
theorem step_sound (m m' : TaskManager) (hInv : Inv m) (hs : Step m m') :
    Inv m' ∧ m'.num_app = m.num_app ∧
    m'.inner.tasks.length = m.inner.tasks.length ∧
    ∀ i, statusAt m i = TaskStatus.Exited → statusAt m' i = TaskStatus.Exited := by
  obtain ⟨hlen, hpos, hcur, hrun, hone⟩ := hInv
  have hclen : m.inner.current_task < m.inner.tasks.length := by omega
  cases hs with
  | suspend now_ms h =>
    obtain ⟨hna, hct, htl, hst⟩ := mark_suspended_spec m hclen
    obtain ⟨next, hfind, hna', hct', htl', hst'⟩ :=
      run_next_switched_spec (mark_current_suspended m) m' now_ms h
    obtain ⟨hnext_lt, hnext_ready⟩ := find_next_task_some _ _ hfind
    rw [hna] at hnext_lt
    have hnl : next < (mark_current_suspended m).inner.tasks.length := by omega
    have hstat := hst' hnl
    refine ⟨⟨?_, ?_, ?_, ?_, ?_⟩, ?_, ?_, ?_⟩
    · omega
    · omega
    · omega
    · rw [hstat, if_pos hct']
    · intro j hj hjne
      rw [hct'] at hjne
      rw [hstat j, if_neg hjne, hst j]
      by_cases hjc : j = m.inner.current_task
      · simp [hjc]
      · rw [if_neg hjc]
        exact hone j (by omega) hjc
    · omega
    · omega
    · intro i hi
      have hic : i ≠ m.inner.current_task := fun he => by
        rw [he, hrun] at hi; exact absurd hi (by simp)
      have hin : i ≠ next := fun he => by
        rw [← he, hst i, if_neg hic] at hnext_ready
        rw [hi] at hnext_ready
        exact absurd hnext_ready (by simp)
      rw [hstat i, if_neg hin, hst i, if_neg hic]
      exact hi
  | exitTask now_ms h =>
    obtain ⟨hna, hct, htl, hst⟩ := mark_exited_spec m hclen
    obtain ⟨next, hfind, hna', hct', htl', hst'⟩ :=
      run_next_switched_spec (mark_current_exited m) m' now_ms h
    obtain ⟨hnext_lt, hnext_ready⟩ := find_next_task_some _ _ hfind
    rw [hna] at hnext_lt
    have hnl : next < (mark_current_exited m).inner.tasks.length := by omega
    have hstat := hst' hnl
    refine ⟨⟨?_, ?_, ?_, ?_, ?_⟩, ?_, ?_, ?_⟩
    · omega
    · omega
    · omega
    · rw [hstat, if_pos hct']
    · intro j hj hjne
      rw [hct'] at hjne
      rw [hstat j, if_neg hjne, hst j]
      by_cases hjc : j = m.inner.current_task
      · simp [hjc]
      · rw [if_neg hjc]
        exact hone j (by omega) hjc
    · omega
    · omega
    · intro i hi
      have hin : i ≠ next := fun he => by
        by_cases hic : i = m.inner.current_task
        · rw [← he, hst i, if_pos hic] at hnext_ready
          exact absurd hnext_ready (by simp)
        · rw [← he, hst i, if_neg hic] at hnext_ready
          rw [hi] at hnext_ready
          exact absurd hnext_ready (by simp)
      by_cases hic : i = m.inner.current_task
      · rw [hstat i, if_neg hin, hst i, if_pos hic]
      · rw [hstat i, if_neg hin, hst i, if_neg hic]
        exact hi
  | record syscall_id h =>
    obtain ⟨hna, hct, htl, hst⟩ :=
      update_syscall_spec m m' syscall_id h
    refine ⟨⟨by omega, by omega, by omega, ?_, ?_⟩, by omega, by omega, ?_⟩
    · rw [hct, hst, hrun]
    · intro j hj hjne
      rw [hct] at hjne
      rw [hst j]
      exact hone j (by omega) hjne
    · intro i hi
      rw [hst i]
      exact hi

/-- The slots of the freshly initialized task table: `Ready` with the
loader-provided context below `num_app`, the zeroed `UnInit` block above. -/
theorem init_tasks_getD (num_app : Nat) (cx : Nat → TaskContext) (i : Nat)
    (hi : i < MAX_APP_NUM) :
    (init_tasks num_app cx).getD i defaultTCB =
      if i < num_app then
        { task_status := TaskStatus.Ready, task_cx := cx i
        , syscall_times := List.replicate 5 0, start_time := 0 }
      else defaultTCB := by
  unfold init_tasks
  rw [List.range_eq_range']
  rw [getD_map_range' _ defaultTCB MAX_APP_NUM 0 i hi]
  simp

/-- The launched initial state satisfies the scheduler invariant. -/
theorem launch_inv (num_app : Nat) (cx : Nat → TaskContext) (now_ms : Nat)
    (h1 : 0 < num_app) (h2 : num_app ≤ MAX_APP_NUM) :
    Inv (run_first_task (init_task_manager num_app cx) now_ms) := by
  have hlen : (init_tasks num_app cx).length = MAX_APP_NUM := by
    simp [init_tasks]
  have h0lt : (0 : Nat) < (init_tasks num_app cx).length := by
    rw [hlen]; norm_num [MAX_APP_NUM]
  have hstat : ∀ j, statusAt (run_first_task (init_task_manager num_app cx) now_ms) j =
      if j = 0 then TaskStatus.Running
      else statusAt (init_task_manager num_app cx) j := by
    intro j
    simp only [run_first_task, statusAt, init_task_manager]
    by_cases hj : j = 0
    · subst hj
      rw [if_pos rfl, getD_set_self _ _ _ _ h0lt]
    · rw [if_neg hj, getD_set_ne _ _ _ _ _ (fun he => hj he.symm)]
  have hinit : ∀ j, j < num_app → statusAt (init_task_manager num_app cx) j =
      TaskStatus.Ready := by
    intro j hj
    simp only [statusAt, init_task_manager]
    rw [init_tasks_getD num_app cx j (by omega), if_pos hj]
  have hlen' : (run_first_task (init_task_manager num_app cx) now_ms).inner.tasks.length =
      MAX_APP_NUM := by
    simp [run_first_task, init_task_manager, init_tasks]
  refine ⟨?_, h1, ?_, ?_, ?_⟩
  · rw [hlen']
    exact h2
  · exact h1
  · show statusAt (run_first_task (init_task_manager num_app cx) now_ms) 0 =
      TaskStatus.Running
    rw [hstat 0, if_pos rfl]
  · intro j hj hjne
    have hj0 : j ≠ 0 := hjne
    have hjn : j < num_app := hj
    rw [hstat j, if_neg hj0, hinit j hjn]
    simp

/-- Every reachable state satisfies the scheduler invariant. -/
theorem reachable_inv (m : TaskManager) (h : Reachable m) : Inv m := by
  induction h with
  | launch num_app cx now_ms h1 h2 => exact launch_inv num_app cx now_ms h1 h2
  | step m m' hr hs ih => exact (step_sound m m' ih hs).1

/-! ### Concrete example states (used by witnesses and counterexamples) -/

/-- The manager right after `run_first_task` on a fresh three-task table. -/
def exampleLaunched : TaskManager :=
  run_first_task (init_task_manager 3 (fun _ => TaskContext.zero_init)) 0

/-- A two-task state: slot 0 `Exited` (and current), slot 1 `Ready`. -/
def exampleTwoTasks : TaskManager :=
  { num_app := 2
  , inner :=
    { tasks := [ { defaultTCB with task_status := TaskStatus.Exited }
               , { defaultTCB with task_status := TaskStatus.Ready } ]
    , current_task := 0 } }

/-- A one-task state whose only task has exited. -/
def exampleAllExited : TaskManager :=
  { num_app := 1
  , inner :=
    { tasks := [ { defaultTCB with task_status := TaskStatus.Exited } ]
    , current_task := 0 } }

/-- The freshly initialized (never launched) two-task manager: the current
slot is `Ready` with `start_time = 0` (never scheduled). -/
def exampleUnrun : TaskManager :=
  init_task_manager 2 (fun _ => TaskContext.zero_init)

/-- The state after the launched three-task manager's current task exits
and task 1 is dispatched. -/
def exampleAfterExit : TaskManager :=
  match exit_current_and_run_next exampleLaunched 1 with
  | RunNextOutcome.switched m2 => m2
  | RunNextOutcome.halted _ _ => exampleLaunched

/-! ### Claim theorems -/

/-- C1: for every manager state with `num_app > 0`, `find_next_task`
returns the first slot in the fixed cyclic order `(current+1) % num_app`,
`(current+2) % num_app`, … whose status is `Ready`, and returns `none` if
no slot in the full cycle is `Ready`.  (The scan is a pure function of the
state: in the embedding it returns only the found index.) -/
theorem C1_find_next_task_round_robin (m : TaskManager) (h : 0 < m.num_app) :
    (∀ j, find_next_task m = some j ↔
      ∃ k, k < m.num_app ∧ j = (m.inner.current_task + 1 + k) % m.num_app ∧
        statusAt m j = TaskStatus.Ready ∧
        ∀ k', k' < k →
          statusAt m ((m.inner.current_task + 1 + k') % m.num_app) ≠
            TaskStatus.Ready) ∧
    (find_next_task m = none ↔
      ∀ k, k < m.num_app →
        statusAt m ((m.inner.current_task + 1 + k) % m.num_app) ≠
          TaskStatus.Ready) :=
  ⟨fun j => find_next_task_eq_some_iff m j, find_next_task_eq_none_iff m⟩

/-- Witness for C1: in `exampleTwoTasks` (slot 0 current and `Exited`,
slot 1 `Ready`) the scan returns slot 1, the first `Ready` candidate. -/
theorem C1_witness : find_next_task exampleTwoTasks = some 1 :=
  ((C1_find_next_task_round_robin exampleTwoTasks (by decide)).1 1).mpr
    ⟨0, by decide, by decide, by decide,
      fun k' hk' => absurd hk' (Nat.not_lt_zero k')⟩

/-- C4: when no task is `Ready`, `run_next_task` (and hence the dispatch
step of `suspend_current_and_run_next` / `exit_current_and_run_next`) is
the terminal `panic!("All applications completed!")` halt, carrying the
manager state unmodified, not a silent no-op or a switched outcome. -/
theorem C4_no_ready_halts (m : TaskManager) (now_ms : Nat)
    (h : ∀ j, j < m.num_app → statusAt m j ≠ TaskStatus.Ready) :
    find_next_task m = none ∧
    run_next_task m now_ms = RunNextOutcome.halted m "All applications completed!" ∧
    (∀ m0, m = mark_current_suspended m0 →
      suspend_current_and_run_next m0 now_ms =
        RunNextOutcome.halted m "All applications completed!") ∧
    (∀ m0, m = mark_current_exited m0 →
      exit_current_and_run_next m0 now_ms =
        RunNextOutcome.halted m "All applications completed!") := by
  have hnone : find_next_task m = none := by
    rw [find_next_task_eq_none_iff]
    intro k hk
    exact h _ (Nat.mod_lt _ (by omega))
  have hrun : run_next_task m now_ms =
      RunNextOutcome.halted m "All applications completed!" := by
    unfold run_next_task
    rw [hnone]
  refine ⟨hnone, hrun, ?_, ?_⟩
  · intro m0 he
    unfold suspend_current_and_run_next
    rw [← he, hrun]
  · intro m0 he
    unfold exit_current_and_run_next
    rw [← he, hrun]

/-- Witness for C4: in the all-exited one-task state the dispatch attempt
is the terminal halt. -/
theorem C4_witness :
    run_next_task exampleAllExited 7 =
      RunNextOutcome.halted exampleAllExited "All applications completed!" :=
  (C4_no_ready_halts exampleAllExited 7 (by decide)).2.1

/-- C6: an untracked syscall id (anything other than the five tracked
kinds) makes `map_syscall_to_small_range` hit its `todo!()` arm, so
`update_current_syscall_times` aborts: it produces no updated state at
all (modelled as `none`), never a counter update or a silent ignore. -/
theorem C6_untracked_syscall_aborts (m : TaskManager) (syscall_id : Nat)
    (h : syscall_id ≠ SYSCALL_WRITE ∧ syscall_id ≠ SYSCALL_YIELD ∧
         syscall_id ≠ SYSCALL_EXIT ∧ syscall_id ≠ SYSCALL_GET_TIME ∧
         syscall_id ≠ SYSCALL_TASK_INFO) :
    map_syscall_to_small_range syscall_id = none ∧
    update_current_syscall_times m syscall_id = none := by
  obtain ⟨h1, h2, h3, h4, h5⟩ := h
  have hmap : map_syscall_to_small_range syscall_id = none := by
    simp [map_syscall_to_small_range, h1, h2, h3, h4, h5]
  refine ⟨hmap, ?_⟩
  unfold update_current_syscall_times update_syscall_num
  rw [hmap]

/-- Witness for C6: syscall id 0 is untracked and aborts. -/
theorem C6_witness :
    map_syscall_to_small_range 0 = none ∧
    update_current_syscall_times exampleLaunched 0 = none :=
  C6_untracked_syscall_aborts exampleLaunched 0 (by decide)

/-- C9: `mark_current_suspended` / `mark_current_exited` write only the
current task's status field (to `Ready` / `Exited` respectively); the
current slot's context, syscall counters and first-run timestamp, every
other slot, `current_task` and `num_app` are unchanged, and no dispatch
happens as part of the mark (each returns a state, not a switch). -/
theorem C9_mark_writes_only_status (m : TaskManager)
    (hc : m.inner.current_task < m.inner.tasks.length) :
    (mark_current_suspended m).num_app = m.num_app ∧
    (mark_current_suspended m).inner.current_task = m.inner.current_task ∧
    statusAt (mark_current_suspended m) m.inner.current_task = TaskStatus.Ready ∧
    ((mark_current_suspended m).inner.tasks.getD m.inner.current_task defaultTCB).task_cx =
      (m.inner.tasks.getD m.inner.current_task defaultTCB).task_cx ∧
    ((mark_current_suspended m).inner.tasks.getD m.inner.current_task defaultTCB).syscall_times =
      (m.inner.tasks.getD m.inner.current_task defaultTCB).syscall_times ∧
    ((mark_current_suspended m).inner.tasks.getD m.inner.current_task defaultTCB).start_time =
      (m.inner.tasks.getD m.inner.current_task defaultTCB).start_time ∧
    (∀ j, j ≠ m.inner.current_task →
      (mark_current_suspended m).inner.tasks.getD j defaultTCB =
        m.inner.tasks.getD j defaultTCB) ∧
    (mark_current_exited m).num_app = m.num_app ∧
    (mark_current_exited m).inner.current_task = m.inner.current_task ∧
    statusAt (mark_current_exited m) m.inner.current_task = TaskStatus.Exited ∧
    ((mark_current_exited m).inner.tasks.getD m.inner.current_task defaultTCB).task_cx =
      (m.inner.tasks.getD m.inner.current_task defaultTCB).task_cx ∧
    ((mark_current_exited m).inner.tasks.getD m.inner.current_task defaultTCB).syscall_times =
      (m.inner.tasks.getD m.inner.current_task defaultTCB).syscall_times ∧
    ((mark_current_exited m).inner.tasks.getD m.inner.current_task defaultTCB).start_time =
      (m.inner.tasks.getD m.inner.current_task defaultTCB).start_time ∧
    (∀ j, j ≠ m.inner.current_task →
      (mark_current_exited m).inner.tasks.getD j defaultTCB =
        m.inner.tasks.getD j defaultTCB) := by
  have hs : (mark_current_suspended m).inner.tasks.getD m.inner.current_task defaultTCB =
      { m.inner.tasks.getD m.inner.current_task defaultTCB with
        task_status := TaskStatus.Ready } := by
    simp only [mark_current_suspended]
    rw [getD_set_self _ _ _ _ hc]
  have he : (mark_current_exited m).inner.tasks.getD m.inner.current_task defaultTCB =
      { m.inner.tasks.getD m.inner.current_task defaultTCB with
        task_status := TaskStatus.Exited } := by
    simp only [mark_current_exited]
    rw [getD_set_self _ _ _ _ hc]
  refine ⟨rfl, rfl, ?_, ?_, ?_, ?_, ?_, rfl, rfl, ?_, ?_, ?_, ?_, ?_⟩
  · simp only [statusAt]
    rw [hs]
  · rw [hs]
  · rw [hs]
  · rw [hs]
  · intro j hj
    simp only [mark_current_suspended]
    rw [getD_set_ne _ _ _ _ _ (fun hne => hj hne.symm)]
  · simp only [statusAt]
    rw [he]
  · rw [he]
  · rw [he]
  · rw [he]
  · intro j hj
    simp only [mark_current_exited]
    rw [getD_set_ne _ _ _ _ _ (fun hne => hj hne.symm)]

/-- Witness for C9: the marks on the launched three-task state touch only
the current slot's status. -/
theorem C9_witness :
    statusAt (mark_current_suspended exampleLaunched)
      exampleLaunched.inner.current_task = TaskStatus.Ready ∧
    statusAt (mark_current_exited exampleLaunched)
      exampleLaunched.inner.current_task = TaskStatus.Exited :=
  ⟨(C9_mark_writes_only_status exampleLaunched (by decide)).2.2.1,
   (C9_mark_writes_only_status exampleLaunched (by decide)).2.2.2.2.2.2.2.2.2.1⟩

/-- C10: the full-cycle scan includes the current slot as its last
candidate: if after `mark_current_suspended` the current task is the only
`Ready` task, `find_next_task` returns the current index itself, and
`suspend_current_and_run_next` re-dispatches the same task instead of
halting. -/
theorem C10_scan_includes_current (m : TaskManager)
    (hn : m.num_app ≤ m.inner.tasks.length)
    (hc : m.inner.current_task < m.num_app)
    (honly : ∀ j, j < m.num_app → j ≠ m.inner.current_task →
      statusAt (mark_current_suspended m) j ≠ TaskStatus.Ready) :
    find_next_task (mark_current_suspended m) = some m.inner.current_task ∧
    ∀ now_ms, ∃ m', suspend_current_and_run_next m now_ms =
        RunNextOutcome.switched m' ∧
      m'.inner.current_task = m.inner.current_task := by
  have hclen : m.inner.current_task < m.inner.tasks.length := by omega
  obtain ⟨hna, hct, htl, hst⟩ := mark_suspended_spec m hclen
  have hready : statusAt (mark_current_suspended m) m.inner.current_task =
      TaskStatus.Ready := by
    rw [hst, if_pos rfl]
  have hfind : find_next_task (mark_current_suspended m) =
      some m.inner.current_task := by
    rw [find_next_task_eq_some_iff]
    refine ⟨m.num_app - 1, ?_, ?_, ?_, ?_⟩
    · show m.num_app - 1 < (mark_current_suspended m).num_app
      rw [hna]; omega
    · show m.inner.current_task =
        ((mark_current_suspended m).inner.current_task + 1 + (m.num_app - 1)) %
          (mark_current_suspended m).num_app
      rw [hct, hna]
      have : m.inner.current_task + 1 + (m.num_app - 1) =
          m.inner.current_task + m.num_app := by omega
      rw [this, Nat.add_mod_right, Nat.mod_eq_of_lt hc]
    · exact hready
    · intro k' hk'
      rw [hct, hna] at *
      set c := m.inner.current_task with hcdef
      set n := m.num_app with hndef
      have hk'n : k' < n - 1 := hk'
      have hcand_lt : (c + 1 + k') % n < n := Nat.mod_lt _ (by omega)
      have hcand_ne : (c + 1 + k') % n ≠ c := by
        intro heq
        by_cases hcase : c + 1 + k' < n
        · rw [Nat.mod_eq_of_lt hcase] at heq
          omega
        · have hle : n ≤ c + 1 + k' := le_of_not_lt hcase
          have hsub : c + 1 + k' - n < n := by omega
          rw [Nat.mod_eq_sub_mod hle, Nat.mod_eq_of_lt hsub] at heq
          omega
      exact honly _ hcand_lt hcand_ne
  refine ⟨hfind, ?_⟩
  intro now_ms
  cases hout : suspend_current_and_run_next m now_ms with
  | halted m2 msg =>
    exfalso
    have hout' : run_next_task (mark_current_suspended m) now_ms =
        RunNextOutcome.halted m2 msg := hout
    unfold run_next_task at hout'
    rw [hfind] at hout'
    exact absurd hout' (by simp)
  | switched m2 =>
    refine ⟨m2, rfl, ?_⟩
    have hout' : run_next_task (mark_current_suspended m) now_ms =
        RunNextOutcome.switched m2 := hout
    obtain ⟨next, hfind2, _, hct2, _, _⟩ :=
      run_next_switched_spec (mark_current_suspended m) m2 now_ms hout'
    rw [hfind] at hfind2
    have : next = m.inner.current_task := by
      injection hfind2.symm
    rw [hct2, this]

/-- Witness for C10: suspending the launched three-task manager with tasks
1 and 2 already exited leaves task 0 the only `Ready` slot, and the scan
returns task 0 itself. -/
theorem C10_witness :
    find_next_task (mark_current_suspended
      { num_app := 3
      , inner :=
        { tasks := [ { defaultTCB with task_status := TaskStatus.Running }
                   , { defaultTCB with task_status := TaskStatus.Exited }
                   , { defaultTCB with task_status := TaskStatus.Exited } ]
        , current_task := 0 } }) = some 0 :=
  (C10_scan_includes_current
    { num_app := 3
    , inner :=
      { tasks := [ { defaultTCB with task_status := TaskStatus.Running }
                 , { defaultTCB with task_status := TaskStatus.Exited }
                 , { defaultTCB with task_status := TaskStatus.Exited } ]
      , current_task := 0 } }
    (by decide) (by decide) (by decide)).1

/-- Reachability is closed under chains of completed public operations. -/
theorem reachable_of_steps (a b : TaskManager) (ha : Reachable a)
    (h : Relation.ReflTransGen Step a b) : Reachable b := by
  induction h with
  | refl => exact ha
  | tail h1 h2 ih => exact Reachable.step _ _ ih h2

/-- C3: after `run_first_task` and after every completed public operation
(every reachable state), exactly one in-range task has status `Running`,
and `current_task` is its index. -/
theorem C3_exactly_one_running (m : TaskManager) (h : Reachable m) :
    m.inner.current_task < m.num_app ∧
    statusAt m m.inner.current_task = TaskStatus.Running ∧
    ∀ j, j < m.num_app → statusAt m j = TaskStatus.Running →
      j = m.inner.current_task := by
  obtain ⟨hlen, hpos, hcur, hrun, hone⟩ := reachable_inv m h
  exact ⟨hcur, hrun, fun j hj hr =>
    Classical.byContradiction fun hne => hone j hj hne hr⟩

/-- Witness for C3: the launched three-task manager has its current task
(slot 0) `Running`. -/
theorem C3_witness :
    exampleLaunched.inner.current_task < exampleLaunched.num_app ∧
    statusAt exampleLaunched exampleLaunched.inner.current_task =
      TaskStatus.Running :=
  ⟨(C3_exactly_one_running exampleLaunched
      (Reachable.launch 3 (fun _ => TaskContext.zero_init) 0
        (by decide) (by decide))).1,
   (C3_exactly_one_running exampleLaunched
      (Reachable.launch 3 (fun _ => TaskContext.zero_init) 0
        (by decide) (by decide))).2.1⟩

/-- C2: in every reachable state, once an in-range slot is `Exited` it
stays `Exited` across any chain of subsequent completed operations, and
the scan never returns it: `Exited` is terminal. -/
theorem C2_exited_terminal (m m' : TaskManager) (i : Nat)
    (hm : Reachable m) (hsteps : Relation.ReflTransGen Step m m')
    (hi : i < m.num_app) (hex : statusAt m i = TaskStatus.Exited) :
    statusAt m' i = TaskStatus.Exited ∧ find_next_task m' ≠ some i := by
  have key : statusAt m' i = TaskStatus.Exited := by
    clear hi
    induction hsteps with
    | refl => exact hex
    | tail h1 h2 ih =>
      exact (step_sound _ _ (reachable_inv _ (reachable_of_steps _ _ hm h1))
        h2).2.2.2 i ih
  refine ⟨key, ?_⟩
  intro hsome
  have := (find_next_task_some m' i hsome).2
  rw [key] at this
  exact absurd this (by simp)

/-- Witness for C2: after the launched three-task manager's task 0 exits,
slot 0 is `Exited`, stays `Exited`, and is never selected. -/
theorem C2_witness :
    statusAt exampleAfterExit 0 = TaskStatus.Exited ∧
    find_next_task exampleAfterExit ≠ some 0 :=
  C2_exited_terminal exampleAfterExit exampleAfterExit 0
    (Reachable.step exampleLaunched exampleAfterExit
      (Reachable.launch 3 (fun _ => TaskContext.zero_init) 0
        (by decide) (by decide))
      (Step.exitTask exampleLaunched exampleAfterExit 1 (by decide)))
    Relation.ReflTransGen.refl (by decide) (by decide)

/-- C5 counterexample: the claim says a task with `first_run_timestamp`
unset (0) is reported with 0 elapsed time; but in `exampleUnrun` (current
task never scheduled, `start_time = 0`) a query at `now_ms = 5` reports
elapsed time 5, not 0: the code has no special case for an unset
timestamp. -/
theorem C5_counterexample :
    (exampleUnrun.inner.tasks.getD exampleUnrun.inner.current_task
        defaultTCB).start_time = 0 ∧
    (get_current_task_info exampleUnrun 5).1.time = 5 ∧
    (get_current_task_info exampleUnrun 5).1.time ≠ 0 := by
  refine ⟨by decide, rfl, by decide⟩

/-- C5 (amended): `get_current_task_info` reports elapsed time as
`now_ms - start_time` (when that subtraction does not underflow a
`usize`); for a task whose `first_run_timestamp` is unset (0) this is
`now_ms` itself — the time since boot — not 0. -/
theorem C5_report_time (m : TaskManager) (now_ms : Nat)
    (hnow : now_ms < USIZE_MOD)
    (hle : (m.inner.tasks.getD m.inner.current_task defaultTCB).start_time ≤
      now_ms) :
    (get_current_task_info m now_ms).1.time =
      now_ms -
        (m.inner.tasks.getD m.inner.current_task defaultTCB).start_time := by
  show (now_ms + USIZE_MOD -
      (m.inner.tasks.getD m.inner.current_task defaultTCB).start_time) %
        USIZE_MOD =
    now_ms - (m.inner.tasks.getD m.inner.current_task defaultTCB).start_time
  have h64 : USIZE_MOD = 18446744073709551616 := by norm_num [USIZE_MOD]
  rw [h64]
  rw [h64] at hnow
  omega

/-- Witness for C5 (amended): the never-run current task of `exampleUnrun`
is reported with elapsed time `5 - 0 = 5` at `now_ms = 5`. -/
theorem C5_witness :
    (get_current_task_info exampleUnrun 5).1.time =
      5 - (exampleUnrun.inner.tasks.getD exampleUnrun.inner.current_task
        defaultTCB).start_time :=
  C5_report_time exampleUnrun 5 (by decide) (by decide)

/-- The small-range index of a tracked syscall is below 5. -/
theorem map_syscall_lt_5 (syscall_id k : Nat)
    (h : map_syscall_to_small_range syscall_id = some k) : k < 5 := by
  unfold map_syscall_to_small_range at h
  split_ifs at h <;> simp_all <;> omega

/-- Effect of one successful `update_current_syscall_times`: the current
slot's counter list is updated at the mapped index, everything else is
the identity. -/
theorem update_one_spec (m m' : TaskManager) (syscall_id k : Nat)
    (hmap : map_syscall_to_small_range syscall_id = some k)
    (hc : m.inner.current_task < m.inner.tasks.length)
    (h : update_current_syscall_times m syscall_id = some m') :
    m'.num_app = m.num_app ∧
    m'.inner.current_task = m.inner.current_task ∧
    m'.inner.tasks.length = m.inner.tasks.length ∧
    (∀ j, j ≠ m.inner.current_task →
      m'.inner.tasks.getD j defaultTCB = m.inner.tasks.getD j defaultTCB) ∧
    (m'.inner.tasks.getD m.inner.current_task defaultTCB).task_status =
      (m.inner.tasks.getD m.inner.current_task defaultTCB).task_status ∧
    (m'.inner.tasks.getD m.inner.current_task defaultTCB).task_cx =
      (m.inner.tasks.getD m.inner.current_task defaultTCB).task_cx ∧
    (m'.inner.tasks.getD m.inner.current_task defaultTCB).start_time =
      (m.inner.tasks.getD m.inner.current_task defaultTCB).start_time ∧
    (m'.inner.tasks.getD m.inner.current_task defaultTCB).syscall_times =
      (m.inner.tasks.getD m.inner.current_task defaultTCB).syscall_times.set k
        (((m.inner.tasks.getD m.inner.current_task
            defaultTCB).syscall_times.getD k 0 + 1) % U32_MOD) := by
  unfold update_current_syscall_times update_syscall_num at h
  rw [hmap] at h
  simp only [Option.some.injEq] at h
  subst h
  have hblk := getD_set_self m.inner.tasks m.inner.current_task
    { m.inner.tasks.getD m.inner.current_task defaultTCB with
      syscall_times :=
        (m.inner.tasks.getD m.inner.current_task defaultTCB).syscall_times.set k
          (((m.inner.tasks.getD m.inner.current_task
              defaultTCB).syscall_times.getD k 0 + 1) % U32_MOD) }
    defaultTCB hc
  refine ⟨rfl, rfl, by simp, ?_, ?_, ?_, ?_, ?_⟩
  · intro j hj
    exact getD_set_ne _ _ _ _ _ (fun he => hj he.symm)
  · rw [hblk]
  · rw [hblk]
  · rw [hblk]
  · rw [hblk]

/-- C7: calling `update_current_syscall_times` `n` times with a tracked
syscall kind (small-range index `k`) increments exactly the current
task's counter for `k` by `n` (as a `u32`), and leaves every other slot,
the current slot's status, context and first-run timestamp, every other
counter of the current slot, `current_task` and `num_app` unchanged. -/
theorem C7_record_increments_current (m m' : TaskManager)
    (syscall_id k n : Nat)
    (hmap : map_syscall_to_small_range syscall_id = some k)
    (hc : m.inner.current_task < m.inner.tasks.length)
    (hlen5 : (m.inner.tasks.getD m.inner.current_task
      defaultTCB).syscall_times.length = 5)
    (hbound : (m.inner.tasks.getD m.inner.current_task
      defaultTCB).syscall_times.getD k 0 < U32_MOD)
    (hrec : record_syscall_times syscall_id n m = some m') :
    m'.num_app = m.num_app ∧
    m'.inner.current_task = m.inner.current_task ∧
    (∀ j, j ≠ m.inner.current_task →
      m'.inner.tasks.getD j defaultTCB = m.inner.tasks.getD j defaultTCB) ∧
    (m'.inner.tasks.getD m.inner.current_task defaultTCB).task_status =
      (m.inner.tasks.getD m.inner.current_task defaultTCB).task_status ∧
    (m'.inner.tasks.getD m.inner.current_task defaultTCB).task_cx =
      (m.inner.tasks.getD m.inner.current_task defaultTCB).task_cx ∧
    (m'.inner.tasks.getD m.inner.current_task defaultTCB).start_time =
      (m.inner.tasks.getD m.inner.current_task defaultTCB).start_time ∧
    (m'.inner.tasks.getD m.inner.current_task
        defaultTCB).syscall_times.getD k 0 =
      ((m.inner.tasks.getD m.inner.current_task
          defaultTCB).syscall_times.getD k 0 + n) % U32_MOD ∧
    (∀ k', k' ≠ k →
      (m'.inner.tasks.getD m.inner.current_task
          defaultTCB).syscall_times.getD k' 0 =
        (m.inner.tasks.getD m.inner.current_task
            defaultTCB).syscall_times.getD k' 0) := by
  have hk5 := map_syscall_lt_5 syscall_id k hmap
  induction n generalizing m with
  | zero =>
    simp only [record_syscall_times, Option.some.injEq] at hrec
    subst hrec
    refine ⟨rfl, rfl, fun j _ => rfl, rfl, rfl, rfl, ?_, fun k' _ => rfl⟩
    rw [Nat.add_zero, Nat.mod_eq_of_lt hbound]
  | succ n ih =>
    rw [record_syscall_times] at hrec
    cases hu : update_current_syscall_times m syscall_id with
    | none =>
      exfalso
      unfold update_current_syscall_times update_syscall_num at hu
      rw [hmap] at hu
      exact absurd hu (by simp)
    | some m1 =>
      rw [hu] at hrec
      obtain ⟨hna, hct, htl, hframe, hstat, hcx, hstart, hsys⟩ :=
        update_one_spec m m1 syscall_id k hmap hc hu
      have hc1 : m1.inner.current_task < m1.inner.tasks.length := by
        rw [hct, htl]; exact hc
      have hcur1 : ∀ d, m1.inner.tasks.getD m1.inner.current_task d =
          m1.inner.tasks.getD m.inner.current_task d := by
        intro d; rw [hct]
      have hk5' : k <
          (m.inner.tasks.getD m.inner.current_task
            defaultTCB).syscall_times.length := by
        rw [hlen5]; exact hk5
      have hlen51 : (m1.inner.tasks.getD m1.inner.current_task
          defaultTCB).syscall_times.length = 5 := by
        rw [hcur1, hsys, List.length_set]
        exact hlen5
      have hkcur : (m1.inner.tasks.getD m.inner.current_task
          defaultTCB).syscall_times.getD k 0 =
          ((m.inner.tasks.getD m.inner.current_task
              defaultTCB).syscall_times.getD k 0 + 1) % U32_MOD := by
        rw [hsys, getD_set_self _ _ _ _ hk5']
      have hbound1 : (m1.inner.tasks.getD m1.inner.current_task
          defaultTCB).syscall_times.getD k 0 < U32_MOD := by
        rw [hcur1, hkcur]
        exact Nat.mod_lt _ (by norm_num [U32_MOD])
      obtain ⟨ina, ict, iframe, ist, icx, istart, icnt, iothers⟩ :=
        ih m1 hc1 hlen51 hbound1 hrec
      rw [hct] at ict iframe ist icx istart icnt iothers
      refine ⟨?_, ?_, ?_, ?_, ?_, ?_, ?_, ?_⟩
      · rw [ina, hna]
      · exact ict
      · intro j hj
        rw [iframe j hj]
        exact hframe j hj
      · rw [ist, hstat]
      · rw [icx, hcx]
      · rw [istart, hstart]
      · rw [icnt, hkcur, Nat.mod_add_mod]
        congr 1
        omega
      · intro k' hk'
        rw [iothers k' hk', hsys,
          getD_set_ne _ _ _ _ _ (fun he => hk' he.symm)]

/-- The launched three-task manager after two tracked `write` syscalls
from task 0. -/
def exampleRecorded : TaskManager :=
  match record_syscall_times SYSCALL_WRITE 2 exampleLaunched with
  | some m2 => m2
  | none => exampleLaunched

/-- Witness for C7: recording `SYSCALL_WRITE` twice in the launched
three-task manager takes the current task's counter for index 0 from 0
to `(0 + 2) % 2^32`. -/
theorem C7_witness :
    (exampleRecorded.inner.tasks.getD exampleLaunched.inner.current_task
        defaultTCB).syscall_times.getD 0 0 =
      ((exampleLaunched.inner.tasks.getD exampleLaunched.inner.current_task
          defaultTCB).syscall_times.getD 0 0 + 2) % U32_MOD :=
  (C7_record_increments_current exampleLaunched exampleRecorded
    SYSCALL_WRITE 0 2 (by decide) (by decide) (by decide) (by decide)
    (by decide)).2.2.2.2.2.2.1

/-- C8: `get_current_task_info` always succeeds with the fixed success
code 0, and the syscall-count table it writes covers the whole
`MAX_SYSCALL_NUM`-entry syscall-kind space: each tracked kind carries the
current task's recorded counter, every untracked kind reports 0. -/
theorem C8_report_info_full_space (m : TaskManager) (now_ms : Nat) :
    (get_current_task_info m now_ms).2 = 0 ∧
    (get_current_task_info m now_ms).1.syscall_times.length = MAX_SYSCALL_NUM ∧
    ∀ s, s < MAX_SYSCALL_NUM →
      (get_current_task_info m now_ms).1.syscall_times.getD s 0 =
        (if s = SYSCALL_WRITE then
          (m.inner.tasks.getD m.inner.current_task
            defaultTCB).syscall_times.getD 0 0
        else if s = SYSCALL_YIELD then
          (m.inner.tasks.getD m.inner.current_task
            defaultTCB).syscall_times.getD 1 0
        else if s = SYSCALL_EXIT then
          (m.inner.tasks.getD m.inner.current_task
            defaultTCB).syscall_times.getD 2 0
        else if s = SYSCALL_GET_TIME then
          (m.inner.tasks.getD m.inner.current_task
            defaultTCB).syscall_times.getD 3 0
        else if s = SYSCALL_TASK_INFO then
          (m.inner.tasks.getD m.inner.current_task
            defaultTCB).syscall_times.getD 4 0
        else 0) := by
  have htable : (get_current_task_info m now_ms).1.syscall_times =
      ((((((List.replicate MAX_SYSCALL_NUM 0).set SYSCALL_WRITE
        ((m.inner.tasks.getD m.inner.current_task
          defaultTCB).syscall_times.getD 0 0)).set SYSCALL_YIELD
        ((m.inner.tasks.getD m.inner.current_task
          defaultTCB).syscall_times.getD 1 0)).set SYSCALL_EXIT
        ((m.inner.tasks.getD m.inner.current_task
          defaultTCB).syscall_times.getD 2 0)).set SYSCALL_GET_TIME
        ((m.inner.tasks.getD m.inner.current_task
          defaultTCB).syscall_times.getD 3 0)).set SYSCALL_TASK_INFO
        ((m.inner.tasks.getD m.inner.current_task
          defaultTCB).syscall_times.getD 4 0)) := rfl
  refine ⟨rfl, ?_, ?_⟩
  · rw [htable]
    simp only [List.length_set, List.length_replicate]
  · intro s hs
    rw [htable]
    by_cases h1 : s = SYSCALL_WRITE
    · subst h1
      rw [if_pos rfl]
      rw [getD_set_ne _ _ _ _ _ (by decide), getD_set_ne _ _ _ _ _ (by decide),
        getD_set_ne _ _ _ _ _ (by decide), getD_set_ne _ _ _ _ _ (by decide),
        getD_set_self _ _ _ _ (by simp only [List.length_set, List.length_replicate]; decide)]
    · rw [if_neg h1]
      by_cases h2 : s = SYSCALL_YIELD
      · subst h2
        rw [if_pos rfl]
        rw [getD_set_ne _ _ _ _ _ (by decide), getD_set_ne _ _ _ _ _ (by decide),
          getD_set_ne _ _ _ _ _ (by decide),
          getD_set_self _ _ _ _ (by simp only [List.length_set, List.length_replicate]; decide)]
      · rw [if_neg h2]
        by_cases h3 : s = SYSCALL_EXIT
        · subst h3
          rw [if_pos rfl]
          rw [getD_set_ne _ _ _ _ _ (by decide),
            getD_set_ne _ _ _ _ _ (by decide),
            getD_set_self _ _ _ _ (by simp only [List.length_set, List.length_replicate]; decide)]
        · rw [if_neg h3]
          by_cases h4 : s = SYSCALL_GET_TIME
          · subst h4
            rw [if_pos rfl]
            rw [getD_set_ne _ _ _ _ _ (by decide),
              getD_set_self _ _ _ _ (by simp only [List.length_set, List.length_replicate]; decide)]
          · rw [if_neg h4]
            by_cases h5 : s = SYSCALL_TASK_INFO
            · subst h5
              rw [if_pos rfl]
              rw [getD_set_self _ _ _ _ (by simp only [List.length_set, List.length_replicate]; decide)]
            · rw [if_neg h5]
              rw [getD_set_ne _ _ _ _ _ (fun he => h5 he.symm),
                getD_set_ne _ _ _ _ _ (fun he => h4 he.symm),
                getD_set_ne _ _ _ _ _ (fun he => h3 he.symm),
                getD_set_ne _ _ _ _ _ (fun he => h2 he.symm),
                getD_set_ne _ _ _ _ _ (fun he => h1 he.symm),
                getD_replicate, if_pos hs]

/-- Witness for C8: at the launched three-task state, the info record
reports success code 0 and count 0 for the untracked syscall id 65. -/
theorem C8_witness :
    (get_current_task_info exampleLaunched 0).2 = 0 ∧
    (get_current_task_info exampleLaunched 0).1.syscall_times.getD 65 0 = 0 := by
  refine ⟨(C8_report_info_full_space exampleLaunched 0).1, ?_⟩
  have h := (C8_report_info_full_space exampleLaunched 0).2.2 65 (by decide)
  simpa [SYSCALL_WRITE, SYSCALL_YIELD, SYSCALL_EXIT, SYSCALL_GET_TIME,
    SYSCALL_TASK_INFO] using h

end OS3
